import Mathlib

/-!
Verification development for the loadtest repository.

The single source file, lib/loadtest.js, is shallowly embedded below.
The program is single-threaded JavaScript driven by an event loop, so the
embedding models the synchronous functions of the source as pure state
transformers on an explicit operation state, and models the event loop as
a list of asynchronous events (request completions, the maxSeconds timer,
rate-limit timer ticks) executed one at a time.  Each definition carries a
comment naming the source lines it embeds.
-/

namespace Loadtest

/-- JavaScript truthiness of an optional numeric option: an absent option
and the number 0 are falsy, every other number is truthy. -/
def truthyN : Option Nat → Bool
  | none => false
  | some n => !(n == 0)

/-- JavaScript truthiness of an optional string option: an absent option
and the empty string are falsy, every nonempty string is truthy. -/
def truthyS : Option String → Bool
  | none => false
  | some s => !(s == "")

/-- The JavaScript values that appear as the second argument (the result)
of a request finisher in lib/loadtest.js: undefined (requestFinished called
with one argument, line 144), the literal false (line 206), the string
literal used on a connection error (line 198), or a numeric status code
(line 204). -/
inductive ResultVal
  | vundefined
  | vfalse
  | vstr (s : String)
  | vnum (n : Nat)
deriving DecidableEq, Repr

/-- JavaScript truthiness of a result value. -/
def ResultVal.truthy : ResultVal → Bool
  | ResultVal.vundefined => false
  | ResultVal.vfalse => false
  | ResultVal.vstr s => !(s == "")
  | ResultVal.vnum n => !(n == 0)

/-- The configuration surface of exports.loadTest (lines 212-230) that the
claims depend on.  Fields not constrained by any claim (method, body,
cookies, agent flags, debug) are omitted: they only shape the HTTP message,
never the control flow modelled here. -/
structure Options where
  url : Option String
  concurrency : Option Nat
  maxRequests : Option Nat
  maxSeconds : Option Nat
  requestsPerSecond : Option Nat
  indexParam : Option String
  quiet : Bool := false
deriving DecidableEq, Repr

/-- The state of one running Operation together with its clients and timers.
Fields mirror the mutable variables of the source:
running and requests are Operation attributes (lines 273, 276);
latencyStarts counts calls to operation.latency.start (line 135) and
latencyEnds records the errorCode argument of each operation.latency.end
call (line 173); showTimerActive stands for the pending showTimer (line
290); clientTimersActive stands for the per-client HighResolutionTimer
instances of rate-limited clients (line 112); finalDeliveries counts
invocations of the final result callback (line 359); timeoutPending stands
for the pending setTimeout(stop, maxSeconds*1000) (line 288); inFlight
counts, per client index, the dispatched http requests whose completion
handler has not yet run (lines 137-146). -/
structure SysState where
  running : Bool
  requests : Nat
  latencyStarts : Nat
  latencyEnds : List (Option ResultVal)
  showTimerActive : Bool
  clientTimersActive : Bool
  finalDeliveries : Nat
  timeoutPending : Bool
  inFlight : List Nat
deriving DecidableEq, Repr

/-- The four kinds of side effect performed by the body of Operation.stop
(lines 346-361), in source order: showTimer.stop() (line 350),
self.running = false (line 352), clients[index].stop() (line 355), and
callback(null, self.latency.getResults()) (line 359). -/
inductive Action
  | stopShowTimer
  | setRunningFalse
  | stopClient (i : Nat)
  | deliverResults
deriving DecidableEq, Repr

/-- Effect of one stop action on the state.  stopClient stops the client's
rate timer if it has one (HttpClient.stop, lines 118-124); stopping a timer
that was never created or is already stopped is a no-op, which the flag
update reflects. -/
def applyAction : Action → SysState → SysState
  | Action.stopShowTimer, s => { s with showTimerActive := false }
  | Action.setRunningFalse, s => { s with running := false }
  | Action.stopClient _, s => { s with clientTimersActive := false }
  | Action.deliverResults, s => { s with finalDeliveries := s.finalDeliveries + 1 }

/-- Run a list of stop actions left to right. -/
def runActions (acts : List Action) (s : SysState) : SysState :=
  acts.foldl (fun st a => applyAction a st) s

/-- The exact sequence of actions performed by Operation.stop (lines
346-361) for an Operation with nC clients.  The showTimer guard on line 348
is always satisfied once start has run (line 290 assigns showTimer and
nothing ever clears the variable), and the callback guard on line 357 is
the hasCb parameter.  Note there is no idempotency guard: every invocation
performs the whole sequence. -/
def stopTrace (hasCb : Bool) (nC : Nat) : List Action :=
  [Action.stopShowTimer, Action.setRunningFalse]
    ++ (List.range nC).map Action.stopClient
    ++ (if hasCb then [Action.deliverResults] else [])

/-- Operation.stop (lines 346-361) as a state transformer: execute its
action sequence. -/
def jsStop (hasCb : Bool) (nC : Nat) (s : SysState) : SysState :=
  runActions (stopTrace hasCb nC) s

/-- HttpClient.makeRequest (lines 129-147).  If the operation is not
running it returns immediately (lines 131-134).  Otherwise it allocates a
latency id (line 135) and dispatches one http request for client i (lines
137-146); the completion is delivered later as an event. -/
def jsMakeRequest (i : Nat) (s : SysState) : SysState :=
  if s.running = false then s
  else
    { s with
      latencyStarts := s.latencyStarts + 1
      inFlight := s.inFlight.set i (s.inFlight.getD i 0 + 1) }

/-- Operation.callback (lines 296-314): increment the completed-request
counter; if maxRequests is truthy and the counter equals it, call stop (the
branch for requests greater than maxRequests only logs a debug message);
finally, if still running and a continue callback was supplied, invoke it. -/
def jsOperationCallback (opts : Options) (hasCb : Bool) (nC : Nat)
    (next : Option (SysState → SysState)) (s : SysState) : SysState :=
  let s1 : SysState := { s with requests := s.requests + 1 }
  let s2 : SysState :=
    if truthyN opts.maxRequests = true then
      (if s1.requests = opts.maxRequests.getD 0 then jsStop hasCb nC s1 else s1)
    else s1
  if s2.running = true then
    (match next with
     | some f => f s2
     | none => s2)
  else s2

/-- The errorCode computed by the request finisher (lines 154-173): null on
success; on a truthy error, the result if the result is truthy, otherwise
the sentinel string -1. -/
def finisherErrorCode (error : Option String) (result : ResultVal) : Option ResultVal :=
  if truthyS error = true then
    (if result.truthy = true then some result else some (ResultVal.vstr "-1"))
  else none

/-- The function returned by getRequestFinisher for client i (lines
152-181): compute the errorCode, record latency.end(id, errorCode) (line
173), choose the continue callback (self.makeRequest exactly when
requestsPerSecond is falsy, lines 174-178), and invoke operation.callback
(line 179). -/
def jsRequestFinished (opts : Options) (hasCb : Bool) (nC : Nat) (i : Nat)
    (error : Option String) (result : ResultVal) (s : SysState) : SysState :=
  let errorCode := finisherErrorCode error result
  let s1 : SysState := { s with latencyEnds := s.latencyEnds ++ [errorCode] }
  let next : Option (SysState → SysState) :=
    if truthyN opts.requestsPerSecond = true then none else some (jsMakeRequest i)
  jsOperationCallback opts hasCb nC next s1

/-- The transport-level outcome of a single dispatched request, as seen by
the handlers registered in makeRequest and getConnect: the request object
emits error (lines 142-145), the connection emits error (lines 196-199),
or the connection ends with a status code (lines 200-207). -/
inductive TransportEvent
  | requestError (msg : String)
  | connectionError (msg : String)
  | connectionEnd (statusCode : Nat)
deriving DecidableEq, Repr

/-- The (error, result) pair with which the handlers of makeRequest (line
144) and getConnect (lines 198, 204, 206) invoke the request finisher for
each transport outcome.  requestFinished is called with a single argument
on a request error, so the result is undefined there. -/
def finisherArgs (id : Nat) (ev : TransportEvent) : Option String × ResultVal :=
  match ev with
  | TransportEvent.requestError msg =>
      (some ("Connection error: " ++ msg), ResultVal.vundefined)
  | TransportEvent.connectionError msg =>
      (some ("Connection " ++ toString id ++ " failed: " ++ msg), ResultVal.vstr "1")
  | TransportEvent.connectionEnd statusCode =>
      if 300 ≤ statusCode then
        (some ("Status code " ++ toString statusCode), ResultVal.vnum statusCode)
      else (none, ResultVal.vfalse)

/-- One iteration of the startClients loop after the indexParam check
(lines 328-339): create the client and, when requestsPerSecond is falsy,
call client.start() which immediately calls makeRequest (HttpClient.start,
lines 105-113).  When requestsPerSecond is truthy, client.start is deferred
by setTimeout to a random offset and only creates the client's rate timer;
the timer's ticks are delivered later as events. -/
def jsClientCreateStart (opts : Options) (index : Nat) (s : SysState) : SysState :=
  if truthyN opts.requestsPerSecond = false then jsMakeRequest index s else s

/-- startClients (lines 319-341).  For each index below the concurrency,
the loop body first evaluates url.replaceAll(indexParam, index) when
options.indexParam is truthy (line 326); the identifier indexParam is not
defined anywhere in the source, so that evaluation throws a
ReferenceError, modelled as an Except.error.  Otherwise the client is
created and started. -/
def jsStartClients (opts : Options) (nC : Nat) (s : SysState) : Except String SysState :=
  List.foldlM
    (fun st index =>
      if truthyS opts.indexParam = true then
        Except.error ("ReferenceError: indexParam is not defined")
      else Except.ok (jsClientCreateStart opts index st))
    s (List.range nC)

/-- The state of a freshly constructed Operation at the top of start()
(lines 267-284): running is true (line 273), all counters are zero, no
timers are pending yet, and nC clients each have no request in flight.
clientTimersActive anticipates the rate timers that rate-limited clients
create in their deferred start. -/
def initOpState (opts : Options) (nC : Nat) : SysState :=
  { running := true
    requests := 0
    latencyStarts := 0
    latencyEnds := []
    showTimerActive := false
    clientTimersActive := truthyN opts.requestsPerSecond
    finalDeliveries := 0
    timeoutPending := false
    inFlight := List.replicate nC 0 }

/-- Operation.start (lines 282-291): create the latency tracker, start the
clients, schedule the one-shot stop when maxSeconds is truthy (lines
286-289), and create the periodic report timer (line 290). -/
def jsOperationStart (opts : Options) (nC : Nat) : Except String SysState :=
  match jsStartClients opts nC (initOpState opts nC) with
  | Except.error e => Except.error e
  | Except.ok s1 =>
      Except.ok { s1 with
        timeoutPending := truthyN opts.maxSeconds
        showTimerActive := true }

/-- Which client constructor loadTest selects from the URL scheme (lines
239-246). -/
inductive ClientKind
  | websocketClient
  | httpClient
deriving DecidableEq, Repr

/-- Decidable equality of Except values with decidable components. -/
instance {ε α : Type} [DecidableEq ε] [DecidableEq α] : DecidableEq (Except ε α) :=
  fun a b =>
    match a, b with
    | Except.error x, Except.error y =>
        if h : x = y then Decidable.isTrue (by rw [h])
        else Decidable.isFalse (by intro hc; cases hc; exact h rfl)
    | Except.error _, Except.ok _ => Decidable.isFalse (by intro hc; cases hc)
    | Except.ok _, Except.error _ => Decidable.isFalse (by intro hc; cases hc)
    | Except.ok x, Except.ok y =>
        if h : x = y then Decidable.isTrue (by rw [h])
        else Decidable.isFalse (by intro hc; cases hc; exact h rfl)

/-- The observable outcome of exports.loadTest (lines 231-262): a missing
or empty url is reported and nothing happens (lines 234-238), an unknown
scheme only prints the help text (lines 247-250), otherwise an Operation is
created with the resolved options and started (lines 251-261). -/
inductive LoadTestResult
  | missingUrl
  | showHelp
  | started (kind : ClientKind) (resolved : Options) (run : Except String SysState)
deriving DecidableEq, Repr

/-- The JavaScript expression options.concurrency that appears as
options.concurrency = options.concurrency or-else 1 (line 251): keep a
truthy value, replace a falsy one by the default. -/
def jsOrNat (o : Option Nat) (d : Nat) : Nat :=
  match o with
  | some n => if n == 0 then d else n
  | none => d

/-- JavaScript String.prototype.startsWith (used on lines 239 and 243),
expressed on the character list of the strings. -/
def strStartsWith (s p : String) : Bool :=
  p.data.isPrefixOf s.data

/-- exports.loadTest (lines 231-262). -/
def jsLoadTest (opts : Options) (hasCb : Bool) : LoadTestResult :=
  if truthyS opts.url = false then LoadTestResult.missingUrl
  else
    let u := opts.url.getD ""
    let kindOpt : Option ClientKind :=
      if strStartsWith u ("ws://") then some ClientKind.websocketClient
      else if strStartsWith u ("http") then some ClientKind.httpClient
      else none
    match kindOpt with
    | none => LoadTestResult.showHelp
    | some kind =>
        let opts1 : Options := { opts with concurrency := some (jsOrNat opts.concurrency 1) }
        let opts2 : Options := if hasCb then { opts1 with quiet := true } else opts1
        LoadTestResult.started kind opts2
          (jsOperationStart opts2 (opts2.concurrency.getD 1))

/-- The asynchronous events the event loop can deliver to a running
Operation: the completion of an in-flight request of client i with a given
transport-determined (error, result) pair, the one-shot maxSeconds timer,
or one tick of a rate-limited client's request timer. -/
inductive Event
  | complete (i : Nat) (error : Option String) (result : ResultVal)
  | timeout
  | tick (i : Nat)
deriving DecidableEq, Repr

/-- Whether an event can fire in a state: a completion needs an in-flight
request of that client, the timeout needs the pending setTimeout, and a
tick needs a live rate timer of an existing rate-limited client. -/
def enabled (opts : Options) (nC : Nat) (e : Event) (s : SysState) : Bool :=
  match e with
  | Event.complete i _ _ => decide (0 < s.inFlight.getD i 0)
  | Event.timeout => s.timeoutPending
  | Event.tick i =>
      s.clientTimersActive && truthyN opts.requestsPerSecond && decide (i < nC)

/-- Execute one event.  A completion consumes the in-flight request and
runs the registered finisher (lines 136-146); the timeout consumes the
pending timer and runs stop (line 288); a tick runs makeRequest (line
112). -/
def execEvent (opts : Options) (hasCb : Bool) (nC : Nat) (e : Event) (s : SysState) :
    SysState :=
  match e with
  | Event.complete i error result =>
      jsRequestFinished opts hasCb nC i error result
        { s with inFlight := s.inFlight.set i (s.inFlight.getD i 0 - 1) }
  | Event.timeout => jsStop hasCb nC { s with timeoutPending := false }
  | Event.tick i => jsMakeRequest i s

/-- Execute a list of events left to right. -/
def execRun (opts : Options) (hasCb : Bool) (nC : Nat) (es : List Event) (s : SysState) :
    SysState :=
  es.foldl (fun st e => execEvent opts hasCb nC e st) s

/-- A run is valid when every event is enabled in the state in which it
fires. -/
def validRun (opts : Options) (hasCb : Bool) (nC : Nat) : List Event → SysState → Bool
  | [], _ => true
  | e :: es, s =>
      enabled opts nC e s && validRun opts hasCb nC es (execEvent opts hasCb nC e s)

/-- Number of firings of the maxSeconds deadline in a run. -/
def countTimeouts : List Event → Nat
  | [] => 0
  | Event.timeout :: es => countTimeouts es + 1
  | _ :: es => countTimeouts es

/-- Every client has at most one request in flight. -/
def allAtMostOne (s : SysState) : Prop :=
  ∀ i, s.inFlight.getD i 0 ≤ 1

/-- Operation.callback reaches the stop branch exactly when maxRequests is
truthy and the incremented counter equals it (lines 299-303). -/
def hitsMaxRequests (opts : Options) (completed : Nat) : Prop :=
  truthyN opts.maxRequests = true ∧ completed = opts.maxRequests.getD 0

instance (opts : Options) (c : Nat) : Decidable (hitsMaxRequests opts c) :=
  if h : truthyN opts.maxRequests = true ∧ c = opts.maxRequests.getD 0 then
    Decidable.isTrue h
  else Decidable.isFalse h

theorem runActions_nil (s : SysState) : runActions [] s = s := rfl

theorem runActions_cons (a : Action) (acts : List Action) (s : SysState) :
    runActions (a :: acts) s = runActions acts (applyAction a s) := rfl

theorem runActions_append (l1 l2 : List Action) (s : SysState) :
    runActions (l1 ++ l2) s = runActions l2 (runActions l1 s) := by
  simp [runActions, List.foldl_append]

theorem applyAction_preserve (a : Action) (s : SysState) :
    (applyAction a s).requests = s.requests ∧
    (applyAction a s).inFlight = s.inFlight ∧
    (applyAction a s).latencyStarts = s.latencyStarts ∧
    (applyAction a s).latencyEnds = s.latencyEnds ∧
    (applyAction a s).timeoutPending = s.timeoutPending := by
  cases a <;> exact ⟨rfl, rfl, rfl, rfl, rfl⟩

theorem runActions_preserve (acts : List Action) : ∀ s : SysState,
    (runActions acts s).requests = s.requests ∧
    (runActions acts s).inFlight = s.inFlight ∧
    (runActions acts s).latencyStarts = s.latencyStarts ∧
    (runActions acts s).latencyEnds = s.latencyEnds ∧
    (runActions acts s).timeoutPending = s.timeoutPending := by
  induction acts with
  | nil => intro s; exact ⟨rfl, rfl, rfl, rfl, rfl⟩
  | cons a acts ih =>
      intro s
      have h1 := applyAction_preserve a s
      have h2 := ih (applyAction a s)
      rw [runActions_cons]
      exact ⟨h2.1.trans h1.1, h2.2.1.trans h1.2.1, h2.2.2.1.trans h1.2.2.1,
        h2.2.2.2.1.trans h1.2.2.2.1, h2.2.2.2.2.trans h1.2.2.2.2⟩

theorem runActions_running_false (acts : List Action) : ∀ s : SysState,
    s.running = false → (runActions acts s).running = false := by
  induction acts with
  | nil => intro s h; exact h
  | cons a acts ih =>
      intro s h
      rw [runActions_cons]
      apply ih
      cases a <;> simp [applyAction, h]

theorem jsStop_running (hasCb : Bool) (nC : Nat) (s : SysState) :
    (jsStop hasCb nC s).running = false := by
  have h : stopTrace hasCb nC
      = Action.stopShowTimer :: Action.setRunningFalse ::
        ((List.range nC).map Action.stopClient
          ++ (if hasCb then [Action.deliverResults] else [])) := by
    simp [stopTrace]
  rw [jsStop, h, runActions_cons, runActions_cons]
  exact runActions_running_false _ _ rfl

theorem jsStop_preserve (hasCb : Bool) (nC : Nat) (s : SysState) :
    (jsStop hasCb nC s).requests = s.requests ∧
    (jsStop hasCb nC s).inFlight = s.inFlight ∧
    (jsStop hasCb nC s).latencyStarts = s.latencyStarts ∧
    (jsStop hasCb nC s).latencyEnds = s.latencyEnds ∧
    (jsStop hasCb nC s).timeoutPending = s.timeoutPending :=
  runActions_preserve _ s

theorem runActions_stopClients_fd (l : List Nat) : ∀ s : SysState,
    (runActions (l.map Action.stopClient) s).finalDeliveries = s.finalDeliveries := by
  induction l with
  | nil => intro s; rfl
  | cons i l ih =>
      intro s
      rw [List.map_cons, runActions_cons]
      exact ih _

theorem jsStop_finalDeliveries (hasCb : Bool) (nC : Nat) (s : SysState) :
    (jsStop hasCb nC s).finalDeliveries
      = s.finalDeliveries + (if hasCb = true then 1 else 0) := by
  rw [jsStop, stopTrace, runActions_append, runActions_append]
  set t1 := runActions [Action.stopShowTimer, Action.setRunningFalse] s with ht1
  have h1 : t1.finalDeliveries = s.finalDeliveries := rfl
  set t2 := runActions (List.map Action.stopClient (List.range nC)) t1 with ht2
  have h2 : t2.finalDeliveries = t1.finalDeliveries := runActions_stopClients_fd _ _
  cases hasCb with
  | false => simp [runActions_nil, h2, h1]
  | true => simp [runActions, applyAction, h2, h1]

theorem jsMakeRequest_preserve (i : Nat) (s : SysState) :
    (jsMakeRequest i s).requests = s.requests ∧
    (jsMakeRequest i s).running = s.running ∧
    (jsMakeRequest i s).finalDeliveries = s.finalDeliveries ∧
    (jsMakeRequest i s).latencyEnds = s.latencyEnds ∧
    (jsMakeRequest i s).timeoutPending = s.timeoutPending := by
  unfold jsMakeRequest
  split <;> exact ⟨rfl, rfl, rfl, rfl, rfl⟩

theorem jsMakeRequest_latencyStarts (i : Nat) (s : SysState) :
    (jsMakeRequest i s).latencyStarts
      = s.latencyStarts + (if s.running = true then 1 else 0) := by
  unfold jsMakeRequest
  cases h : s.running <;> simp [h]

theorem jsMakeRequest_inFlight (i : Nat) (s : SysState) :
    (jsMakeRequest i s).inFlight
      = if s.running = true then s.inFlight.set i (s.inFlight.getD i 0 + 1)
        else s.inFlight := by
  unfold jsMakeRequest
  cases h : s.running <;> simp [h]

theorem jsStop_requests (hasCb : Bool) (nC : Nat) (s : SysState) :
    (jsStop hasCb nC s).requests = s.requests := (jsStop_preserve hasCb nC s).1

theorem jsStop_inFlight (hasCb : Bool) (nC : Nat) (s : SysState) :
    (jsStop hasCb nC s).inFlight = s.inFlight := (jsStop_preserve hasCb nC s).2.1

theorem jsStop_latencyStarts (hasCb : Bool) (nC : Nat) (s : SysState) :
    (jsStop hasCb nC s).latencyStarts = s.latencyStarts :=
  (jsStop_preserve hasCb nC s).2.2.1

theorem jsStop_latencyEnds (hasCb : Bool) (nC : Nat) (s : SysState) :
    (jsStop hasCb nC s).latencyEnds = s.latencyEnds :=
  (jsStop_preserve hasCb nC s).2.2.2.1

theorem jsStop_timeoutPending (hasCb : Bool) (nC : Nat) (s : SysState) :
    (jsStop hasCb nC s).timeoutPending = s.timeoutPending :=
  (jsStop_preserve hasCb nC s).2.2.2.2

theorem jsMakeRequest_requests (i : Nat) (s : SysState) :
    (jsMakeRequest i s).requests = s.requests := (jsMakeRequest_preserve i s).1

theorem jsMakeRequest_running (i : Nat) (s : SysState) :
    (jsMakeRequest i s).running = s.running := (jsMakeRequest_preserve i s).2.1

theorem jsMakeRequest_finalDeliveries (i : Nat) (s : SysState) :
    (jsMakeRequest i s).finalDeliveries = s.finalDeliveries :=
  (jsMakeRequest_preserve i s).2.2.1

theorem jsMakeRequest_latencyEnds (i : Nat) (s : SysState) :
    (jsMakeRequest i s).latencyEnds = s.latencyEnds :=
  (jsMakeRequest_preserve i s).2.2.2.1

theorem jsMakeRequest_timeoutPending (i : Nat) (s : SysState) :
    (jsMakeRequest i s).timeoutPending = s.timeoutPending :=
  (jsMakeRequest_preserve i s).2.2.2.2

/-- Full characterization of the request finisher: record the latency end
and the counter increment; when the counter hits maxRequests, run stop
(after which the running check suppresses the continue callback); otherwise
the continue callback fires exactly when the operation is running and the
client is closed-loop. -/
theorem jsRequestFinished_eq (opts : Options) (hasCb : Bool) (nC i : Nat)
    (error : Option String) (result : ResultVal) (s : SysState) :
    jsRequestFinished opts hasCb nC i error result s
      = (if hitsMaxRequests opts (s.requests + 1) then
           jsStop hasCb nC
             { s with requests := s.requests + 1
                      latencyEnds := s.latencyEnds ++ [finisherErrorCode error result] }
         else if s.running = true ∧ truthyN opts.requestsPerSecond = false then
           jsMakeRequest i
             { s with requests := s.requests + 1
                      latencyEnds := s.latencyEnds ++ [finisherErrorCode error result] }
         else
           { s with requests := s.requests + 1
                    latencyEnds := s.latencyEnds ++ [finisherErrorCode error result] }) := by
  by_cases hmr : truthyN opts.maxRequests = true <;>
  by_cases heq : s.requests + 1 = opts.maxRequests.getD 0 <;>
  by_cases hrun : s.running = true <;>
  by_cases hrps : truthyN opts.requestsPerSecond = true <;>
    simp [jsRequestFinished, jsOperationCallback, hitsMaxRequests, hmr, heq, hrun, hrps,
      jsStop_running, Bool.not_eq_true]

theorem jsRequestFinished_requests (opts : Options) (hasCb : Bool) (nC i : Nat)
    (error : Option String) (result : ResultVal) (s : SysState) :
    (jsRequestFinished opts hasCb nC i error result s).requests = s.requests + 1 := by
  rw [jsRequestFinished_eq]
  split_ifs <;> simp [jsStop_requests, jsMakeRequest_requests]

theorem jsRequestFinished_latencyEnds (opts : Options) (hasCb : Bool) (nC i : Nat)
    (error : Option String) (result : ResultVal) (s : SysState) :
    (jsRequestFinished opts hasCb nC i error result s).latencyEnds
      = s.latencyEnds ++ [finisherErrorCode error result] := by
  rw [jsRequestFinished_eq]
  split_ifs <;> simp [jsStop_latencyEnds, jsMakeRequest_latencyEnds]

theorem jsRequestFinished_timeoutPending (opts : Options) (hasCb : Bool) (nC i : Nat)
    (error : Option String) (result : ResultVal) (s : SysState) :
    (jsRequestFinished opts hasCb nC i error result s).timeoutPending
      = s.timeoutPending := by
  rw [jsRequestFinished_eq]
  split_ifs <;> simp [jsStop_timeoutPending, jsMakeRequest_timeoutPending]

theorem jsRequestFinished_finalDeliveries (opts : Options) (hasCb : Bool) (nC i : Nat)
    (error : Option String) (result : ResultVal) (s : SysState) :
    (jsRequestFinished opts hasCb nC i error result s).finalDeliveries
      = s.finalDeliveries
        + (if hitsMaxRequests opts (s.requests + 1) then (if hasCb = true then 1 else 0)
           else 0) := by
  rw [jsRequestFinished_eq]
  by_cases h1 : hitsMaxRequests opts (s.requests + 1)
  · simp [h1, jsStop_finalDeliveries]
  · rw [if_neg h1, if_neg h1]
    split_ifs <;> simp [jsMakeRequest_finalDeliveries]

theorem jsRequestFinished_running (opts : Options) (hasCb : Bool) (nC i : Nat)
    (error : Option String) (result : ResultVal) (s : SysState) :
    (jsRequestFinished opts hasCb nC i error result s).running
      = (if hitsMaxRequests opts (s.requests + 1) then false else s.running) := by
  rw [jsRequestFinished_eq]
  split_ifs <;> simp [jsStop_running, jsMakeRequest_running]

theorem jsRequestFinished_latencyStarts (opts : Options) (hasCb : Bool) (nC i : Nat)
    (error : Option String) (result : ResultVal) (s : SysState) :
    (jsRequestFinished opts hasCb nC i error result s).latencyStarts
      = s.latencyStarts
        + (if hitsMaxRequests opts (s.requests + 1) then 0
           else if s.running = true ∧ truthyN opts.requestsPerSecond = false then 1
           else 0) := by
  rw [jsRequestFinished_eq]
  by_cases h1 : hitsMaxRequests opts (s.requests + 1)
  · simp [h1, jsStop_latencyStarts]
  · by_cases h2 : s.running = true ∧ truthyN opts.requestsPerSecond = false
    · simp [h1, h2, jsMakeRequest_latencyStarts, h2.1]
    · simp [h1, h2]

theorem jsRequestFinished_inFlight (opts : Options) (hasCb : Bool) (nC i : Nat)
    (error : Option String) (result : ResultVal) (s : SysState) :
    (jsRequestFinished opts hasCb nC i error result s).inFlight
      = (if hitsMaxRequests opts (s.requests + 1) then s.inFlight
         else if s.running = true ∧ truthyN opts.requestsPerSecond = false then
           s.inFlight.set i (s.inFlight.getD i 0 + 1)
         else s.inFlight) := by
  rw [jsRequestFinished_eq]
  by_cases h1 : hitsMaxRequests opts (s.requests + 1)
  · simp [h1, jsStop_inFlight]
  · by_cases h2 : s.running = true ∧ truthyN opts.requestsPerSecond = false
    · simp [h1, h2, jsMakeRequest_inFlight, h2.1]
    · simp [h1, h2]

theorem execRun_nil (opts : Options) (hasCb : Bool) (nC : Nat) (s : SysState) :
    execRun opts hasCb nC [] s = s := rfl

theorem execRun_cons (opts : Options) (hasCb : Bool) (nC : Nat) (e : Event)
    (es : List Event) (s : SysState) :
    execRun opts hasCb nC (e :: es) s
      = execRun opts hasCb nC es (execEvent opts hasCb nC e s) := rfl

theorem execRun_append (opts : Options) (hasCb : Bool) (nC : Nat)
    (l1 l2 : List Event) (s : SysState) :
    execRun opts hasCb nC (l1 ++ l2) s
      = execRun opts hasCb nC l2 (execRun opts hasCb nC l1 s) := by
  simp [execRun, List.foldl_append]

theorem execRun_singleton (opts : Options) (hasCb : Bool) (nC : Nat) (e : Event)
    (s : SysState) :
    execRun opts hasCb nC [e] s = execEvent opts hasCb nC e s := rfl

theorem countTimeouts_cons (e : Event) (es : List Event) :
    countTimeouts (e :: es)
      = countTimeouts es + (if e = Event.timeout then 1 else 0) := by
  cases e <;> simp [countTimeouts]

theorem validRun_cons (opts : Options) (hasCb : Bool) (nC : Nat) (e : Event)
    (es : List Event) (s : SysState) :
    validRun opts hasCb nC (e :: es) s
      = (enabled opts nC e s
          && validRun opts hasCb nC es (execEvent opts hasCb nC e s)) := rfl

theorem validRun_append (opts : Options) (hasCb : Bool) (nC : Nat) (l2 : List Event) :
    ∀ (l1 : List Event) (s : SysState),
    validRun opts hasCb nC (l1 ++ l2) s
      = (validRun opts hasCb nC l1 s
          && validRun opts hasCb nC l2 (execRun opts hasCb nC l1 s)) := by
  intro l1
  induction l1 with
  | nil => intro s; simp [validRun, execRun_nil]
  | cons e l1 ih =>
      intro s
      rw [List.cons_append, validRun_cons, validRun_cons, execRun_cons, ih,
        Bool.and_assoc]

theorem hitsMaxRequests_some (opts : Options) (N c : Nat)
    (hmr : opts.maxRequests = some N) (hN : 1 ≤ N) :
    hitsMaxRequests opts c ↔ c = N := by
  constructor
  · intro h
    have := h.2
    rwa [hmr] at this
  · intro h
    refine ⟨?_, by rw [hmr]; exact h⟩
    rw [hmr]
    simp [truthyN]
    omega

/-- Effect of one event on the number of final-statistics deliveries, for
an Operation with a result callback and a set maxRequests: the deadline
firing delivers once via stop, and a completion delivers once exactly when
it carries the counter across N. -/
theorem execEvent_deliveries_step (opts : Options) (nC N : Nat)
    (hmr : opts.maxRequests = some N) (hN : 1 ≤ N) (e : Event) (s : SysState) :
    (execEvent opts true nC e s).finalDeliveries + (if N ≤ s.requests then 1 else 0)
      = s.finalDeliveries
        + (if N ≤ (execEvent opts true nC e s).requests then 1 else 0)
        + (if e = Event.timeout then 1 else 0) := by
  cases e with
  | complete i error result =>
      simp only [execEvent, jsRequestFinished_finalDeliveries, jsRequestFinished_requests,
        hitsMaxRequests_some opts N _ hmr hN, reduceCtorEq, if_false]
      split_ifs <;> omega
  | timeout =>
      simp only [execEvent, jsStop_finalDeliveries, jsStop_requests, if_pos]
      split_ifs <;> omega
  | tick i =>
      simp only [execEvent, jsMakeRequest_finalDeliveries, jsMakeRequest_requests,
        reduceCtorEq, if_false]
      omega

/-- Over a whole run, the number of final-statistics deliveries is the
number of deadline firings plus one delivery when the counter has reached
maxRequests. -/
theorem execRun_deliveries (opts : Options) (nC N : Nat)
    (hmr : opts.maxRequests = some N) (hN : 1 ≤ N) :
    ∀ (es : List Event) (s : SysState),
    (execRun opts true nC es s).finalDeliveries + (if N ≤ s.requests then 1 else 0)
      = s.finalDeliveries + countTimeouts es
        + (if N ≤ (execRun opts true nC es s).requests then 1 else 0) := by
  intro es
  induction es with
  | nil => intro s; simp [execRun_nil, countTimeouts]
  | cons e es ih =>
      intro s
      have hstep := execEvent_deliveries_step opts nC N hmr hN e s
      have hrec := ih (execEvent opts true nC e s)
      rw [execRun_cons, countTimeouts_cons]
      omega

/-- While the Operation is running, the completed counter stays below a set
maxRequests, because the completion that reaches it stops the Operation in
the same synchronous step (no deadline firing in the run). -/
theorem execEvent_running_lt (opts : Options) (hasCb : Bool) (nC N : Nat)
    (hmr : opts.maxRequests = some N) (hN : 1 ≤ N) (e : Event)
    (hne : e ≠ Event.timeout) (s : SysState)
    (h : s.running = true → s.requests < N) :
    (execEvent opts hasCb nC e s).running = true
      → (execEvent opts hasCb nC e s).requests < N := by
  cases e with
  | timeout => exact absurd rfl hne
  | tick i =>
      simp only [execEvent, jsMakeRequest_running, jsMakeRequest_requests]
      exact h
  | complete i error result =>
      simp only [execEvent, jsRequestFinished_running, jsRequestFinished_requests,
        hitsMaxRequests_some opts N _ hmr hN]
      intro hrun
      by_cases hc : s.requests + 1 = N
      · rw [if_pos hc] at hrun
        exact absurd hrun (by simp)
      · rw [if_neg hc] at hrun
        have := h hrun
        omega

theorem execRun_running_lt (opts : Options) (hasCb : Bool) (nC N : Nat)
    (hmr : opts.maxRequests = some N) (hN : 1 ≤ N) :
    ∀ (es : List Event) (s : SysState), (∀ x ∈ es, x ≠ Event.timeout)
      → (s.running = true → s.requests < N)
      → ((execRun opts hasCb nC es s).running = true
          → (execRun opts hasCb nC es s).requests < N) := by
  intro es
  induction es with
  | nil => intro s _ h; exact h
  | cons e es ih =>
      intro s hnt h
      rw [execRun_cons]
      exact ih _ (fun x hx => hnt x (List.mem_cons_of_mem _ hx))
        (execEvent_running_lt opts hasCb nC N hmr hN e
          (hnt e (List.mem_cons_self e es)) s h)

theorem getD_set_cases (l : List Nat) (i j v : Nat) :
    (l.set i v).getD j 0 = if i = j ∧ i < l.length then v else l.getD j 0 := by
  by_cases hij : i = j
  · subst hij
    by_cases hlen : i < l.length
    · simp [List.getD, List.getElem?_set_eq_of_lt, hlen]
    · have hge : l.length ≤ i := by omega
      simp [List.getD, hlen, List.getElem?_eq_none, hge]
  · simp [List.getD, List.getElem?_set_ne, hij]

theorem getD_pos_lt (l : List Nat) (i : Nat) (h : 0 < l.getD i 0) : i < l.length := by
  by_contra hc
  push_neg at hc
  simp [List.getD, List.getElem?_eq_none hc] at h

theorem getD_replicate_zero (n j : Nat) : (List.replicate n (0 : Nat)).getD j 0 = 0 := by
  simp [List.getD]

theorem foldClients_preserve (opts : Options) : ∀ (l : List Nat) (s : SysState),
    ((l.foldl (fun st i => jsClientCreateStart opts i st) s).requests = s.requests)
    ∧ ((l.foldl (fun st i => jsClientCreateStart opts i st) s).running = s.running)
    ∧ ((l.foldl (fun st i => jsClientCreateStart opts i st) s).finalDeliveries
        = s.finalDeliveries)
    ∧ ((l.foldl (fun st i => jsClientCreateStart opts i st) s).latencyEnds
        = s.latencyEnds) := by
  intro l
  induction l with
  | nil => intro s; exact ⟨rfl, rfl, rfl, rfl⟩
  | cons a l ih =>
      intro s
      rw [List.foldl_cons]
      have h2 := ih (jsClientCreateStart opts a s)
      have h1 : (jsClientCreateStart opts a s).requests = s.requests
          ∧ (jsClientCreateStart opts a s).running = s.running
          ∧ (jsClientCreateStart opts a s).finalDeliveries = s.finalDeliveries
          ∧ (jsClientCreateStart opts a s).latencyEnds = s.latencyEnds := by
        unfold jsClientCreateStart
        split
        · exact ⟨jsMakeRequest_requests a s, jsMakeRequest_running a s,
            jsMakeRequest_finalDeliveries a s, jsMakeRequest_latencyEnds a s⟩
        · exact ⟨rfl, rfl, rfl, rfl⟩
      exact ⟨h2.1.trans h1.1, h2.2.1.trans h1.2.1, h2.2.2.1.trans h1.2.2.1,
        h2.2.2.2.trans h1.2.2.2⟩

/-- The only successful outcome of the startClients loop is the plain left
fold of client creation over the client indices. -/
theorem startClients_foldlM_ok (opts : Options) : ∀ (l : List Nat) (s s1 : SysState),
    List.foldlM
      (fun st index =>
        if truthyS opts.indexParam = true then
          Except.error ("ReferenceError: indexParam is not defined")
        else Except.ok (jsClientCreateStart opts index st))
      s l = Except.ok s1
    → s1 = l.foldl (fun st i => jsClientCreateStart opts i st) s := by
  intro l
  induction l with
  | nil =>
      intro s s1 h
      simp only [List.foldlM_nil] at h
      cases h
      rfl
  | cons a l ih =>
      intro s s1 h
      rw [List.foldlM_cons] at h
      by_cases hip : truthyS opts.indexParam = true
      · rw [if_pos hip] at h
        cases h
      · rw [if_neg hip] at h
        rw [List.foldl_cons]
        exact ih _ _ h

theorem jsStartClients_ok (opts : Options) (nC : Nat) (s s1 : SysState)
    (h : jsStartClients opts nC s = Except.ok s1) :
    s1 = (List.range nC).foldl (fun st i => jsClientCreateStart opts i st) s :=
  startClients_foldlM_ok opts (List.range nC) s s1 h

/-- A successfully started Operation is running with zero completed
requests, no deliveries and no latency ends. -/
theorem jsOperationStart_ok (opts : Options) (nC : Nat) (s0 : SysState)
    (h : jsOperationStart opts nC = Except.ok s0) :
    s0.running = true ∧ s0.requests = 0 ∧ s0.finalDeliveries = 0
    ∧ s0.latencyEnds = [] ∧ s0.inFlight
        = ((List.range nC).foldl (fun st i => jsClientCreateStart opts i st)
            (initOpState opts nC)).inFlight := by
  unfold jsOperationStart at h
  cases hsc : jsStartClients opts nC (initOpState opts nC) with
  | error e => rw [hsc] at h; cases h
  | ok s1 =>
      rw [hsc] at h
      have hfold := jsStartClients_ok opts nC _ s1 hsc
      have hp := foldClients_preserve opts (List.range nC) (initOpState opts nC)
      cases h
      refine ⟨?_, ?_, ?_, ?_, ?_⟩
      · show s1.running = true
        rw [hfold]
        exact hp.2.1
      · show s1.requests = 0
        rw [hfold]
        exact hp.1
      · show s1.finalDeliveries = 0
        rw [hfold]
        exact hp.2.2.1
      · show s1.latencyEnds = []
        rw [hfold]
        exact hp.2.2.2
      · show s1.inFlight = _
        rw [hfold]

/-- Starting pairwise-distinct closed-loop clients, each with no request in
flight yet, leaves every client with at most one request in flight. -/
theorem foldMake_le_one : ∀ (l : List Nat), l.Nodup → ∀ (s : SysState),
    s.running = true
    → (∀ j ∈ l, s.inFlight.getD j 0 = 0)
    → (∀ j, s.inFlight.getD j 0 ≤ 1)
    → ∀ j, ((l.foldl (fun st i => jsMakeRequest i st) s).inFlight.getD j 0) ≤ 1 := by
  intro l
  induction l with
  | nil => intro _ s _ _ h j; exact h j
  | cons a l ih =>
      intro hnd s hrun hzero hle j
      rw [List.foldl_cons]
      have hinf : (jsMakeRequest a s).inFlight
          = s.inFlight.set a (s.inFlight.getD a 0 + 1) := by
        rw [jsMakeRequest_inFlight, if_pos hrun]
      have hza : s.inFlight.getD a 0 = 0 := hzero a (List.mem_cons_self a l)
      refine ih (List.Nodup.of_cons hnd) (jsMakeRequest a s) ?_ ?_ ?_ j
      · rw [jsMakeRequest_running]; exact hrun
      · intro x hx
        have hax : ¬(a = x ∧ a < s.inFlight.length) := by
          intro hc
          exact (List.nodup_cons.mp hnd).1 (hc.1 ▸ hx)
        rw [hinf, getD_set_cases, if_neg hax]
        exact hzero x (List.mem_cons_of_mem _ hx)
      · intro x
        rw [hinf, getD_set_cases]
        split_ifs with hc
        · omega
        · exact hle x

/-- A successfully started Operation has at most one request in flight per
client when the clients are closed-loop. -/
theorem jsOperationStart_atMostOne (opts : Options) (nC : Nat) (s0 : SysState)
    (hrps : truthyN opts.requestsPerSecond = false)
    (h : jsOperationStart opts nC = Except.ok s0) : allAtMostOne s0 := by
  intro j
  have hfold := (jsOperationStart_ok opts nC s0 h).2.2.2.2
  rw [hfold]
  have hfun : (List.range nC).foldl (fun st i => jsClientCreateStart opts i st)
      (initOpState opts nC)
      = (List.range nC).foldl (fun st i => jsMakeRequest i st) (initOpState opts nC) := by
    simp [jsClientCreateStart, hrps]
  rw [hfun]
  refine foldMake_le_one (List.range nC) (List.nodup_range nC) (initOpState opts nC)
    rfl ?_ ?_ j
  · intro x _
    exact getD_replicate_zero nC x
  · intro x
    show (List.replicate nC (0 : Nat)).getD x 0 ≤ 1
    rw [getD_replicate_zero]
    omega

/-- One enabled event preserves the at-most-one-in-flight invariant of
closed-loop runs. -/
theorem execEvent_atMostOne (opts : Options) (hasCb : Bool) (nC : Nat)
    (hrps : truthyN opts.requestsPerSecond = false) (e : Event) (s : SysState)
    (hen : enabled opts nC e s = true) (h : allAtMostOne s) :
    allAtMostOne (execEvent opts hasCb nC e s) := by
  cases e with
  | tick i =>
      exfalso
      simp [enabled, hrps] at hen
  | timeout =>
      intro j
      simp only [execEvent, jsStop_inFlight]
      exact h j
  | complete i error result =>
      intro j
      have hpos : 0 < s.inFlight.getD i 0 := by
        simpa [enabled] using hen
      have hlen : i < s.inFlight.length := getD_pos_lt _ _ hpos
      have hone : s.inFlight.getD i 0 = 1 := le_antisymm (h i) hpos
      have hc0 : (s.inFlight.set i (s.inFlight.getD i 0 - 1)).getD i 0 = 0 := by
        rw [getD_set_cases, if_pos ⟨rfl, hlen⟩, hone]
      have hcany : ∀ x, (s.inFlight.set i (s.inFlight.getD i 0 - 1)).getD x 0 ≤ 1 := by
        intro x
        rw [getD_set_cases]
        split_ifs with hc
        · omega
        · exact h x
      simp only [execEvent, jsRequestFinished_inFlight]
      split_ifs with h1 h2
      · exact hcany j
      · rw [getD_set_cases]
        split_ifs with hc
        · rw [hc0]
        · exact hcany j
      · exact hcany j

theorem execRun_atMostOne (opts : Options) (hasCb : Bool) (nC : Nat)
    (hrps : truthyN opts.requestsPerSecond = false) :
    ∀ (es : List Event) (s : SysState), validRun opts hasCb nC es s = true
      → allAtMostOne s → allAtMostOne (execRun opts hasCb nC es s) := by
  intro es
  induction es with
  | nil => intro s _ h; exact h
  | cons e es ih =>
      intro s hv h
      rw [validRun_cons, Bool.and_eq_true] at hv
      rw [execRun_cons]
      exact ih _ hv.2 (execEvent_atMostOne opts hasCb nC hrps e s hv.1 h)

theorem append_ne_empty (a b : String) (h : a ≠ "") : a ++ b ≠ "" := by
  intro hc
  apply h
  have hl := congrArg String.length hc
  simp [String.length_append] at hl
  have h0 : a.length = 0 := by omega
  cases a with
  | mk data =>
      cases data with
      | nil => rfl
      | cons c cs => simp [String.length] at h0

theorem truthyS_some (s : String) (h : s ≠ "") : truthyS (some s) = true := by
  simp [truthyS, h]

theorem jsOrNat_one_le (o : Option Nat) : 1 ≤ jsOrNat o 1 := by
  cases o with
  | none => simp [jsOrNat]
  | some n =>
      by_cases h : (n == 0) = true
      · simp [jsOrNat, h]
      · have hn : n ≠ 0 := by simpa using h
        simp [jsOrNat, h]
        omega

theorem jsOrNat_falsy (o : Option Nat) (ho : o = none ∨ o = some 0) :
    jsOrNat o 1 = 1 := by
  rcases ho with h | h <;> simp [jsOrNat, h]

/-- A one-client closed-loop configuration with maxRequests 1 and
maxSeconds 1, used as concrete input below. -/
def optsC1 : Options :=
  { url := some ("http://localhost/")
    concurrency := some 1
    maxRequests := some 1
    maxSeconds := some 1
    requestsPerSecond := none
    indexParam := none }

/-- The state of the Operation of optsC1 right after start. -/
def startC1 : SysState :=
  { running := true
    requests := 0
    latencyStarts := 1
    latencyEnds := []
    showTimerActive := true
    clientTimersActive := false
    finalDeliveries := 0
    timeoutPending := true
    inFlight := [1] }

/-- A run of optsC1 in which the single request completes (reaching
maxRequests) and then the maxSeconds deadline fires. -/
def runC1 : List Event :=
  [Event.complete 0 none ResultVal.vfalse, Event.timeout]

/-- C1: the claim says that when both stop triggers fire (completed counter
reaches maxRequests and the maxSeconds deadline elapses) the final
statistics callback is invoked exactly once.  False at this concrete input:
in the valid run runC1 of the started Operation of optsC1 both triggers
fire, yet the final callback is delivered twice, because Operation.stop has
no idempotency guard and each invocation reaches the callback line. -/
theorem C1_claim_counterexample :
    jsOperationStart optsC1 1 = Except.ok startC1
    ∧ validRun optsC1 true 1 runC1 startC1 = true
    ∧ countTimeouts runC1 = 1
    ∧ optsC1.maxRequests.getD 0 ≤ (execRun optsC1 true 1 runC1 startC1).requests
    ∧ (execRun optsC1 true 1 runC1 startC1).finalDeliveries = 2
    ∧ (execRun optsC1 true 1 runC1 startC1).finalDeliveries ≠ 1 := by
  refine ⟨by decide, by decide, by decide, by decide, by decide, by decide⟩

/-- C1 (amended): Operation.stop is not idempotent; every firing of a stop
trigger delivers the final statistics once more.  For every valid run of a
started Operation with a result callback and maxRequests N in which both
triggers fire (the deadline fires once and the completed counter reaches
N), the final statistics callback is invoked exactly twice, once per
trigger, not once. -/
theorem C1_amended_double_delivery (opts : Options) (nC N : Nat) (es : List Event)
    (s0 : SysState) (hmr : opts.maxRequests = some N) (hN : 1 ≤ N)
    (hstart : jsOperationStart opts nC = Except.ok s0)
    (hvalid : validRun opts true nC es s0 = true)
    (hdeadline : countTimeouts es = 1)
    (hreached : N ≤ (execRun opts true nC es s0).requests) :
    (execRun opts true nC es s0).finalDeliveries = 2 := by
  have heq := execRun_deliveries opts nC N hmr hN es s0
  have h0 := jsOperationStart_ok opts nC s0 hstart
  have h1 : (if N ≤ s0.requests then 1 else 0) = 0 := by
    rw [h0.2.1, if_neg (by omega)]
  have h2 : (if N ≤ (execRun opts true nC es s0).requests then 1 else 0) = 1 :=
    if_pos hreached
  have h3 : s0.finalDeliveries = 0 := h0.2.2.1
  omega

/-- C1 amended witness: the amended theorem applied to the concrete run. -/
theorem C1_amended_witness :
    (execRun optsC1 true 1 runC1 startC1).finalDeliveries = 2 :=
  C1_amended_double_delivery optsC1 1 1 runC1 startC1 rfl (by decide) (by decide)
    (by decide) (by decide) (by decide)

/-- C2: for every run of a started Operation configured with
maxRequests = N (with the maxSeconds deadline never firing), at the moment
stop is triggered, i.e. at the first event that flips the running flag to
false, the completed-request counter equals exactly N. -/
theorem C2_counter_exact_at_stop (opts : Options) (hasCb : Bool) (nC N : Nat)
    (p : List Event) (e : Event) (s0 : SysState)
    (hmr : opts.maxRequests = some N) (hN : 1 ≤ N)
    (hstart : jsOperationStart opts nC = Except.ok s0)
    (hvalid : validRun opts hasCb nC (p ++ [e]) s0 = true)
    (hnt : ∀ x ∈ p ++ [e], x ≠ Event.timeout)
    (hbefore : (execRun opts hasCb nC p s0).running = true)
    (hafter : (execRun opts hasCb nC (p ++ [e]) s0).running = false) :
    (execRun opts hasCb nC (p ++ [e]) s0).requests = N := by
  have h0 := jsOperationStart_ok opts nC s0 hstart
  have hlt : (execRun opts hasCb nC p s0).requests < N := by
    refine execRun_running_lt opts hasCb nC N hmr hN p s0 ?_ ?_ hbefore
    · intro x hx
      exact hnt x (List.mem_append_left _ hx)
    · intro _
      rw [h0.2.1]
      omega
  rw [execRun_append, execRun_singleton] at hafter ⊢
  have het : e ≠ Event.timeout :=
    hnt e (List.mem_append_right _ (List.mem_cons_self e []))
  cases e with
  | timeout => exact absurd rfl het
  | tick i =>
      exfalso
      simp only [execEvent, jsMakeRequest_running] at hafter
      rw [hbefore] at hafter
      cases hafter
  | complete i error result =>
      simp only [execEvent, jsRequestFinished_running, jsRequestFinished_requests]
        at hafter ⊢
      by_cases hc : hitsMaxRequests opts ((execRun opts hasCb nC p s0).requests + 1)
      · exact (hitsMaxRequests_some opts N _ hmr hN).mp hc
      · rw [if_neg hc] at hafter
        rw [hbefore] at hafter
        cases hafter

/-- Concrete input for C2: one closed-loop client, maxRequests 2. -/
def optsC2 : Options :=
  { url := some ("http://localhost/")
    concurrency := some 1
    maxRequests := some 2
    maxSeconds := none
    requestsPerSecond := none
    indexParam := none }

/-- The state of the Operation of optsC2 right after start. -/
def startC2 : SysState :=
  { running := true
    requests := 0
    latencyStarts := 1
    latencyEnds := []
    showTimerActive := true
    clientTimersActive := false
    finalDeliveries := 0
    timeoutPending := false
    inFlight := [1] }

/-- C2 witness: a concrete two-completion run of optsC2; the second
completion flips running to false and the counter is exactly 2 there. -/
theorem C2_witness :
    (execRun optsC2 false 1
        ([Event.complete 0 none ResultVal.vfalse]
          ++ [Event.complete 0 none ResultVal.vfalse]) startC2).requests = 2 :=
  C2_counter_exact_at_stop optsC2 false 1 2
    [Event.complete 0 none ResultVal.vfalse] (Event.complete 0 none ResultVal.vfalse)
    startC2 rfl (by decide) (by decide) (by decide) (by decide) (by decide) (by decide)

/-- C3: the claim says Operation.stop first sets the running flag false,
then stops the periodic report timer, then stops every client, then
delivers the final statistics.  False at the concrete input of one client
with a callback: the actual action sequence stops the report timer before
clearing the running flag, so the claimed running-flag-first order is not a
subsequence of the performed actions. -/
theorem C3_claim_counterexample :
    stopTrace true 1
      = [Action.stopShowTimer, Action.setRunningFalse, Action.stopClient 0,
         Action.deliverResults]
    ∧ ¬ List.Sublist [Action.setRunningFalse, Action.stopShowTimer]
        (stopTrace true 1) := by
  refine ⟨by decide, by decide⟩

/-- C3 (amended): Operation.stop performs its shutdown steps in this
order: first it stops the periodic report timer, then it sets the running
flag to false, then it calls stop() on every client, and only then, if a
result callback was supplied, delivers the final statistics. -/
theorem C3_amended_stop_order (hasCb : Bool) (n : Nat) :
    List.Sublist [Action.stopShowTimer, Action.setRunningFalse] (stopTrace hasCb n)
    ∧ (∀ i, i < n →
        List.Sublist [Action.setRunningFalse, Action.stopClient i] (stopTrace hasCb n))
    ∧ (hasCb = true → ∀ i, i < n →
        List.Sublist [Action.stopClient i, Action.deliverResults]
          (stopTrace hasCb n)) := by
  have hshape : stopTrace hasCb n
      = Action.stopShowTimer :: Action.setRunningFalse ::
        ((List.range n).map Action.stopClient
          ++ (if hasCb then [Action.deliverResults] else [])) := by
    simp [stopTrace]
  refine ⟨?_, ?_, ?_⟩
  · rw [hshape]
    exact List.Sublist.cons₂ _ (List.Sublist.cons₂ _ (List.nil_sublist _))
  · intro i hi
    rw [hshape]
    refine List.Sublist.cons _ (List.Sublist.cons₂ _ ?_)
    refine List.singleton_sublist.mpr ?_
    exact List.mem_append_left _ (List.mem_map_of_mem _ (List.mem_range.mpr hi))
  · intro hcb i hi
    subst hcb
    rw [hshape]
    refine List.Sublist.cons _ (List.Sublist.cons _ ?_)
    have h1 : List.Sublist [Action.stopClient i] ((List.range n).map Action.stopClient) :=
      List.singleton_sublist.mpr (List.mem_map_of_mem _ (List.mem_range.mpr hi))
    have h2 := List.Sublist.append h1 (List.Sublist.refl [Action.deliverResults])
    simpa using h2

/-- C3 amended witness: the amended order at two clients with a callback. -/
theorem C3_amended_witness :
    List.Sublist [Action.stopShowTimer, Action.setRunningFalse] (stopTrace true 2)
    ∧ List.Sublist [Action.setRunningFalse, Action.stopClient 1] (stopTrace true 2)
    ∧ List.Sublist [Action.stopClient 1, Action.deliverResults] (stopTrace true 2) :=
  ⟨(C3_amended_stop_order true 2).1,
    (C3_amended_stop_order true 2).2.1 1 (by omega),
    (C3_amended_stop_order true 2).2.2 rfl 1 (by omega)⟩

/-- C4: in every state where the running flag is false, makeRequest is a
no-op (no dispatch, no latency start), the completion hook ignores any
continue callback (its result does not depend on it), and consequently no
event can dispatch a new request or revive the Operation. -/
theorem C4_stopped_noop (opts : Options) (hasCb : Bool) (nC i : Nat)
    (next : Option (SysState → SysState)) (e : Event) (s : SysState)
    (h : s.running = false) :
    jsMakeRequest i s = s
    ∧ jsOperationCallback opts hasCb nC next s = jsOperationCallback opts hasCb nC none s
    ∧ (execEvent opts hasCb nC e s).latencyStarts = s.latencyStarts
    ∧ (execEvent opts hasCb nC e s).running = false := by
  refine ⟨?_, ?_, ?_, ?_⟩
  · simp [jsMakeRequest, h]
  · simp only [jsOperationCallback]
    split_ifs <;> first | rfl | simp_all [jsStop_running]
  · cases e with
    | complete i2 err res =>
        simp only [execEvent, jsRequestFinished_latencyStarts]
        split_ifs <;> simp_all
    | timeout => simp only [execEvent, jsStop_latencyStarts]
    | tick i2 =>
        simp only [execEvent, jsMakeRequest_latencyStarts, h]
        simp
  · cases e with
    | complete i2 err res =>
        simp only [execEvent, jsRequestFinished_running]
        split_ifs <;> simp_all
    | timeout => simp only [execEvent, jsStop_running]
    | tick i2 =>
        simp only [execEvent, jsMakeRequest_running]
        exact h

/-- Concrete stopped state used for the C4 witness. -/
def stoppedC4 : SysState :=
  { running := false
    requests := 3
    latencyStarts := 3
    latencyEnds := [none, none, none]
    showTimerActive := false
    clientTimersActive := false
    finalDeliveries := 1
    timeoutPending := false
    inFlight := [1] }

/-- C4 witness: the theorem applied at a concrete stopped state. -/
theorem C4_witness :
    jsMakeRequest 0 stoppedC4 = stoppedC4
    ∧ jsOperationCallback optsC2 true 1 (some (jsMakeRequest 0)) stoppedC4
      = jsOperationCallback optsC2 true 1 none stoppedC4
    ∧ (execEvent optsC2 true 1 (Event.complete 0 none ResultVal.vfalse)
        stoppedC4).latencyStarts = stoppedC4.latencyStarts
    ∧ (execEvent optsC2 true 1 (Event.complete 0 none ResultVal.vfalse)
        stoppedC4).running = false :=
  C4_stopped_noop optsC2 true 1 0 (some (jsMakeRequest 0))
    (Event.complete 0 none ResultVal.vfalse) stoppedC4 rfl

/-- C5: for a completion that neither finds the Operation stopped nor
crosses maxRequests, the request finisher dispatches exactly one follow-up
request in closed-loop mode (requestsPerSecond falsy, where it passes
makeRequest as the continue callback) and none in open-loop mode (where it
passes no continue callback). -/
theorem C5_continue_only_closed_loop (opts : Options) (hasCb : Bool) (nC i : Nat)
    (error : Option String) (result : ResultVal) (s : SysState)
    (hrun : s.running = true)
    (hnm : ¬ hitsMaxRequests opts (s.requests + 1)) :
    (jsRequestFinished opts hasCb nC i error result s).latencyStarts
      = s.latencyStarts + (if truthyN opts.requestsPerSecond = true then 0 else 1) := by
  rw [jsRequestFinished_latencyStarts, if_neg hnm]
  by_cases hrps : truthyN opts.requestsPerSecond = true
  · simp [hrps]
  · have hf : truthyN opts.requestsPerSecond = false := by
      revert hrps
      cases truthyN opts.requestsPerSecond <;> simp
    simp [hf, hrun]

/-- C5 witness: a closed-loop completion of optsC2 from its started state
re-dispatches exactly one request. -/
theorem C5_witness :
    (jsRequestFinished optsC2 true 1 0 none ResultVal.vfalse startC2).latencyStarts
      = startC2.latencyStarts
        + (if truthyN optsC2.requestsPerSecond = true then 0 else 1) :=
  C5_continue_only_closed_loop optsC2 true 1 0 none ResultVal.vfalse startC2 rfl
    (by decide)

/-- C6: with closed-loop clients (no requestsPerSecond), every valid run of
a started Operation keeps at most one request in flight per client: one is
issued at start and a new one is dispatched only by the completion of the
previous one. -/
theorem C6_closed_loop_serial (opts : Options) (hasCb : Bool) (nC : Nat)
    (es : List Event) (s0 : SysState)
    (hrps : truthyN opts.requestsPerSecond = false)
    (hstart : jsOperationStart opts nC = Except.ok s0)
    (hvalid : validRun opts hasCb nC es s0 = true) :
    allAtMostOne (execRun opts hasCb nC es s0) :=
  execRun_atMostOne opts hasCb nC hrps es s0 hvalid
    (jsOperationStart_atMostOne opts nC s0 hrps hstart)

/-- Concrete input for C6: two closed-loop clients. -/
def optsC6 : Options :=
  { url := some ("http://localhost/")
    concurrency := some 2
    maxRequests := some 3
    maxSeconds := none
    requestsPerSecond := none
    indexParam := none }

/-- The state of the Operation of optsC6 right after start. -/
def startC6 : SysState :=
  { running := true
    requests := 0
    latencyStarts := 2
    latencyEnds := []
    showTimerActive := true
    clientTimersActive := false
    finalDeliveries := 0
    timeoutPending := false
    inFlight := [1, 1] }

/-- A valid run of optsC6: client 0 completes successfully, then client 1
fails with a connection error. -/
def runC6 : List Event :=
  [Event.complete 0 none ResultVal.vfalse,
   Event.complete 1 (some ("Connection error: boom")) ResultVal.vundefined]

/-- C6 witness: the theorem applied to the concrete two-client run. -/
theorem C6_witness : allAtMostOne (execRun optsC6 true 2 runC6 startC6) :=
  C6_closed_loop_serial optsC6 true 2 runC6 startC6 (by decide) (by decide) (by decide)

/-- C7: every finished request finalizes its latency record with a
transport-level connection failure mapped to a sentinel error code (the
string -1 when the request object errors, the string 1 when the connection
errors) and a response status of 300 or more mapped to that numeric status
as the error code; and for every transport outcome the finisher absorbs
the error, appending exactly one latency end record and counting exactly
one completed attempt, never aborting the run. -/
theorem C7_error_taxonomy (opts : Options) (hasCb : Bool) (nC i id code : Nat)
    (msg : String) (s : SysState) (ev : TransportEvent) (hcode : 300 ≤ code) :
    finisherErrorCode (finisherArgs id (TransportEvent.requestError msg)).1
        (finisherArgs id (TransportEvent.requestError msg)).2
      = some (ResultVal.vstr "-1")
    ∧ finisherErrorCode (finisherArgs id (TransportEvent.connectionError msg)).1
        (finisherArgs id (TransportEvent.connectionError msg)).2
      = some (ResultVal.vstr "1")
    ∧ finisherErrorCode (finisherArgs id (TransportEvent.connectionEnd code)).1
        (finisherArgs id (TransportEvent.connectionEnd code)).2
      = some (ResultVal.vnum code)
    ∧ (jsRequestFinished opts hasCb nC i (finisherArgs id ev).1
        (finisherArgs id ev).2 s).requests = s.requests + 1
    ∧ (jsRequestFinished opts hasCb nC i (finisherArgs id ev).1
        (finisherArgs id ev).2 s).latencyEnds
      = s.latencyEnds
          ++ [finisherErrorCode (finisherArgs id ev).1 (finisherArgs id ev).2] := by
  refine ⟨?_, ?_, ?_,
    jsRequestFinished_requests opts hasCb nC i _ _ s,
    jsRequestFinished_latencyEnds opts hasCb nC i _ _ s⟩
  · have h1 : truthyS (some ("Connection error: " ++ msg)) = true :=
      truthyS_some _ (append_ne_empty _ _ (by decide))
    have h2 : ResultVal.truthy ResultVal.vundefined = false := rfl
    simp [finisherArgs, finisherErrorCode, h1, h2]
  · have h1 : truthyS (some ("Connection " ++ toString id ++ " failed: " ++ msg))
        = true :=
      truthyS_some _
        (append_ne_empty _ _ (append_ne_empty _ _ (append_ne_empty _ _ (by decide))))
    have h2 : ResultVal.truthy (ResultVal.vstr "1") = true := by decide
    simp [finisherArgs, finisherErrorCode, h1, h2]
  · have h1 : truthyS (some ("Status code " ++ toString code)) = true :=
      truthyS_some _ (append_ne_empty _ _ (by decide))
    have hc0 : (code == 0) = false := by
      simp
      omega
    simp [finisherArgs, finisherErrorCode, hcode, h1, ResultVal.truthy, hc0]

/-- C7 witness: the theorem applied at a concrete failing status code. -/
theorem C7_witness :
    finisherErrorCode (finisherArgs 7 (TransportEvent.connectionEnd 500)).1
        (finisherArgs 7 (TransportEvent.connectionEnd 500)).2
      = some (ResultVal.vnum 500)
    ∧ (jsRequestFinished optsC2 true 1 0
        (finisherArgs 7 (TransportEvent.connectionEnd 500)).1
        (finisherArgs 7 (TransportEvent.connectionEnd 500)).2 startC2).requests
      = startC2.requests + 1 := by
  have h := C7_error_taxonomy optsC2 true 1 0 7 500 ("boom") startC2
    (TransportEvent.connectionEnd 500) (by omega)
  exact ⟨h.2.2.1, h.2.2.2.1⟩

/-- C8: for every options value with no url field, loadTest reports the
missing URL and returns before any Operation is created or any request is
dispatched. -/
theorem C8_missing_url (opts : Options) (hasCb : Bool) (h : opts.url = none) :
    jsLoadTest opts hasCb = LoadTestResult.missingUrl := by
  have ht : truthyS opts.url = false := by rw [h]; rfl
  simp only [jsLoadTest, ht]
  simp

/-- Concrete input for C8: options without a url. -/
def optsC8 : Options :=
  { url := none
    concurrency := some 5
    maxRequests := some 10
    maxSeconds := some 1
    requestsPerSecond := none
    indexParam := none }

/-- C8 witness. -/
theorem C8_witness : jsLoadTest optsC8 true = LoadTestResult.missingUrl :=
  C8_missing_url optsC8 true rfl

/-- C9: for every options value whose indexParam is set (truthy), starting
the Operation's clients evaluates the undefined identifier indexParam while
templating the URL, so startClients raises a ReferenceError before any
client is created. -/
theorem C9_indexParam_error (opts : Options) (nC : Nat) (s : SysState)
    (hip : truthyS opts.indexParam = true) (hnC : 1 ≤ nC) :
    jsStartClients opts nC s
      = Except.error ("ReferenceError: indexParam is not defined") := by
  obtain ⟨m, rfl⟩ : ∃ m, nC = m + 1 := ⟨nC - 1, by omega⟩
  obtain ⟨a, l, hr⟩ : ∃ a l, List.range (m + 1) = a :: l := by
    cases hr : List.range (m + 1) with
    | nil =>
        exfalso
        have h0 := List.range_eq_nil.mp hr
        omega
    | cons a l => exact ⟨a, l, rfl⟩
  unfold jsStartClients
  rw [hr, List.foldlM_cons, if_pos hip]
  rfl

/-- Concrete input for C9: options with an index-substitution parameter. -/
def optsC9 : Options :=
  { url := some ("http://localhost/")
    concurrency := some 2
    maxRequests := none
    maxSeconds := none
    requestsPerSecond := none
    indexParam := some ("id") }

/-- C9 witness. -/
theorem C9_witness :
    jsStartClients optsC9 2 (initOpState optsC9 2)
      = Except.error ("ReferenceError: indexParam is not defined") :=
  C9_indexParam_error optsC9 2 (initOpState optsC9 2) (by decide) (by decide)

/-- C10: whenever loadTest starts an Operation, the resolved options carry
concurrency 1 when the caller's concurrency was absent or zero, and in any
case a concurrency of at least one, so at least one Virtual Client is
created. -/
theorem C10_concurrency_default (opts : Options) (hasCb : Bool) (kind : ClientKind)
    (resolved : Options) (run : Except String SysState)
    (hres : jsLoadTest opts hasCb = LoadTestResult.started kind resolved run) :
    ((opts.concurrency = none ∨ opts.concurrency = some 0)
      → resolved.concurrency = some 1)
    ∧ 1 ≤ resolved.concurrency.getD 0 := by
  simp only [jsLoadTest] at hres
  split at hres
  · cases hres
  · split at hres
    · cases hres
    · cases hres
      have hcc : (if hasCb then
            { opts with concurrency := some (jsOrNat opts.concurrency 1), quiet := true }
          else
            { opts with concurrency := some (jsOrNat opts.concurrency 1) }).concurrency
          = some (jsOrNat opts.concurrency 1) := by
        cases hasCb <;> rfl
      constructor
      · intro ho
        rw [hcc, jsOrNat_falsy opts.concurrency ho]
      · rw [hcc]
        simpa using jsOrNat_one_le opts.concurrency

/-- Concrete input for C10: options without a concurrency. -/
def optsC10 : Options :=
  { url := some ("http://localhost/")
    concurrency := none
    maxRequests := none
    maxSeconds := none
    requestsPerSecond := none
    indexParam := none }

/-- The resolved options loadTest produces for optsC10 with a callback. -/
def resolvedC10 : Options :=
  { url := some ("http://localhost/")
    concurrency := some 1
    maxRequests := none
    maxSeconds := none
    requestsPerSecond := none
    indexParam := none
    quiet := true }

/-- C10 witness. -/
theorem C10_witness :
    resolvedC10.concurrency = some 1 ∧ 1 ≤ resolvedC10.concurrency.getD 0 := by
  have h := C10_concurrency_default optsC10 true ClientKind.httpClient resolvedC10
    (jsOperationStart resolvedC10 1) (by decide)
  exact ⟨h.1 (Or.inl rfl), h.2⟩

end Loadtest
